import Mathlib

/-!
Verification of the `ManifoldGuard` mesh-repair core of the Easy3D repository
(`easy3d/core/manifold_guard.cpp`).

The guard is shallowly embedded: its state (`ManifoldGuard`) carries the five
session counters, the two working face-vertex buffers and the vertex copy
relation, exactly as the C++ class does.  The half-edge `SurfaceMesh`
collaborator is not part of the excerpt, so the guard's operations are
parameterised over an abstract operation record `MeshOps`; a concrete
executable instance (`smeshOps`, modelled from the specification of the
collaborator) is provided for the end-to-end scenarios.

Vertex handles, half-edge handles and face handles are natural numbers /
abstract types; an invalid handle is `none`.
-/

namespace Easy3D

/-- Abstract interface of the half-edge `SurfaceMesh` collaborator, exactly the
operations consumed by the guard.  `P` is the position type, `M` the mesh
state, `H` the half-edge handle type. -/
structure MeshOps (P M H : Type) where
  find_halfedge : M → Nat → Nat → Option H
  is_boundary_h : M → H → Bool
  is_boundary_v : M → Nat → Bool
  add_vertex : M → P → M × Nat
  add_face : M → List Nat → M × Option Nat
  is_isolated : M → Nat → Bool
  is_manifold : M → Nat → Bool
  delete_vertex : M → Nat → M
  garbage_collection : M → M
  point : M → Nat → P
  vertices : M → List Nat

/-- State of the `ManifoldGuard` class: the wrapped mesh, the five session
counters, the two working buffers and the copy relation
(`std::unordered_map<Vertex, std::vector<Vertex>> copies_`, modelled as an
association list). -/
structure ManifoldGuard (P M : Type) where
  mesh : M
  num_faces_less_three_vertices : Nat
  num_faces_duplicated_vertices : Nat
  num_non_manifold_edges : Nat
  num_non_manifold_vertices : Nat
  num_isolated_vertices : Nat
  input_face_vertices : List Nat
  face_vertices : List Nat
  copies : List (Nat × List Nat)
deriving DecidableEq

variable {P M H : Type}

/-- `copies_.find(k)` of the C++ map: `some l` when the key is present. -/
def lookupCopies : List (Nat × List Nat) → Nat → Option (List Nat)
  | [], _ => none
  | (a, l) :: rest, k => if a == k then some l else lookupCopies rest k

/-- `copies_[k].push_back(nv)`: append to the list registered under `k`,
creating the entry when absent. -/
def appendCopy : List (Nat × List Nat) → Nat → Nat → List (Nat × List Nat)
  | [], k, nv => [(k, [nv])]
  | (a, l) :: rest, k, nv =>
    if a == k then (a, l ++ [nv]) :: rest else (a, l) :: appendCopy rest k nv

/-- `ManifoldGuard::halfedge_is_legel` (manifold_guard.cpp lines 231-243):
the half-edge may not exist as an interior (non-boundary) half-edge, and both
end vertices must be boundary vertices. -/
def halfedge_is_legel (ops : MeshOps P M H) (m : M) (s t : Nat) : Bool :=
  let h := ops.find_halfedge m s t
  if h.any (fun hh => !ops.is_boundary_h m hh) then false
  else if !ops.is_boundary_v m s || !ops.is_boundary_v m t then false
  else true

/-- `ManifoldGuard::copy_vertex` (lines 246-252): read the position of `v`,
add a brand-new vertex there and register it in the copy relation under `v`. -/
def copy_vertex (ops : MeshOps P M H) (g : ManifoldGuard P M) (v : Nat) :
    ManifoldGuard P M × Nat :=
  let p := ops.point g.mesh v
  let r := ops.add_vertex g.mesh p
  ({ g with mesh := r.1, copies := appendCopy g.copies v r.2 }, r.2)

/-- First trial loop of `find_or_duplicate_edge` (lines 168-178): each existing
copy of the current `s` vertex paired with the current `t` vertex. -/
def trialCopiesOfS (ops : MeshOps P M H) (g : ManifoldGuard P M) (s t : Nat) :
    Option (ManifoldGuard P M) :=
  let fvt := g.face_vertices.getD t 0
  match lookupCopies g.copies (g.face_vertices.getD s 0) with
  | none => none
  | some l =>
    match l.find? (fun v => halfedge_is_legel ops g.mesh v fvt) with
    | some v => some { g with face_vertices := g.face_vertices.set s v }
    | none => none

/-- Second trial loop (lines 180-191): the current `s` vertex paired with each
existing copy of the current `t` vertex. -/
def trialCopiesOfT (ops : MeshOps P M H) (g : ManifoldGuard P M) (s t : Nat) :
    Option (ManifoldGuard P M) :=
  let fvs := g.face_vertices.getD s 0
  match lookupCopies g.copies (g.face_vertices.getD t 0) with
  | none => none
  | some l =>
    match l.find? (fun v => halfedge_is_legel ops g.mesh fvs v) with
    | some v => some { g with face_vertices := g.face_vertices.set t v }
    | none => none

/-- Nested search of the third trial loop: first pair `(vs, vt)` of the cross
product (outer loop over the first list) whose edge is legal. -/
def findPair (p : Nat → Nat → Bool) : List Nat → List Nat → Option (Nat × Nat)
  | [], _ => none
  | vs :: rest, lt =>
    match lt.find? (fun vt => p vs vt) with
    | some vt => some (vs, vt)
    | none => findPair p rest lt

/-- Third trial loop (lines 193-207): the full cross product of the copies of
`s` with the copies of `t`, run only when both have copies. -/
def trialCross (ops : MeshOps P M H) (g : ManifoldGuard P M) (s t : Nat) :
    Option (ManifoldGuard P M) :=
  match lookupCopies g.copies (g.face_vertices.getD s 0),
        lookupCopies g.copies (g.face_vertices.getD t 0) with
  | some ls, some lt =>
    match findPair (fun vs vt => halfedge_is_legel ops g.mesh vs vt) ls lt with
    | some pr =>
      some { g with face_vertices := (g.face_vertices.set s pr.1).set t pr.2 }
    | none => none
  | _, _ => none

/-- Last-resort step of `find_or_duplicate_edge` (lines 222-226): copy
whichever of the two slots still holds its original input vertex, with no
legality re-check in between. -/
def lastResort (ops : MeshOps P M H) (g : ManifoldGuard P M) (s t : Nat) :
    ManifoldGuard P M :=
  let g1 :=
    if g.face_vertices.getD s 0 == g.input_face_vertices.getD s 0 then
      let r := copy_vertex ops g (g.input_face_vertices.getD s 0)
      { r.1 with face_vertices := r.1.face_vertices.set s r.2 }
    else g
  if g1.face_vertices.getD t 0 == g1.input_face_vertices.getD t 0 then
    let r := copy_vertex ops g1 (g1.input_face_vertices.getD t 0)
    { r.1 with face_vertices := r.1.face_vertices.set t r.2 }
  else g1

/-- Forced duplication for `t` (lines 216-220), entered after the `s` attempt
did not return. -/
def forceDupT (ops : MeshOps P M H) (g : ManifoldGuard P M) (s t : Nat) :
    ManifoldGuard P M :=
  if !ops.is_boundary_v g.mesh (g.face_vertices.getD t 0) then
    let r := copy_vertex ops g (g.input_face_vertices.getD t 0)
    let g2 := { r.1 with face_vertices := r.1.face_vertices.set t r.2 }
    if halfedge_is_legel ops g2.mesh (g2.face_vertices.getD s 0)
        (g2.face_vertices.getD t 0) then g2
    else lastResort ops g2 s t
  else lastResort ops g s t

/-- Forced duplication fallback (lines 211-226): duplicate the original input
vertex for a non-boundary `s`, retest, then the same for `t`, then the
last-resort step. -/
def fallbackDup (ops : MeshOps P M H) (g : ManifoldGuard P M) (s t : Nat) :
    ManifoldGuard P M :=
  if !ops.is_boundary_v g.mesh (g.face_vertices.getD s 0) then
    let r := copy_vertex ops g (g.input_face_vertices.getD s 0)
    let g2 := { r.1 with face_vertices := r.1.face_vertices.set s r.2 }
    if halfedge_is_legel ops g2.mesh (g2.face_vertices.getD s 0)
        (g2.face_vertices.getD t 0) then g2
    else forceDupT ops g2 s t
  else forceDupT ops g s t

/-- `ManifoldGuard::find_or_duplicate_edge` (lines 157-228): if the edge
`face_vertices_[s] -> face_vertices_[t]` is illegal, bump the non-manifold
edge counter and search for a substitute in the strict source order. -/
def find_or_duplicate_edge (ops : MeshOps P M H) (g : ManifoldGuard P M)
    (s t : Nat) : ManifoldGuard P M :=
  if halfedge_is_legel ops g.mesh (g.face_vertices.getD s 0)
      (g.face_vertices.getD t 0) then g
  else
    let g1 := { g with num_non_manifold_edges := g.num_non_manifold_edges + 1 }
    match trialCopiesOfS ops g1 s t with
    | some g' => g'
    | none =>
      match trialCopiesOfT ops g1 s t with
      | some g' => g'
      | none =>
        match trialCross ops g1 s t with
        | some g' => g'
        | none => fallbackDup ops g1 s t

/-- The all-pairs duplicate scan of `add_face` (lines 124-131). -/
def hasDuplicateIndex : List Nat → Bool
  | [] => false
  | x :: xs => xs.contains x || hasDuplicateIndex xs

/-- `ManifoldGuard::add_face` (lines 114-154): validate, fill both working
buffers, resolve every consecutive edge (wrap-around included) and hand the
resulting vertex list to the mesh. -/
def add_face (ops : MeshOps P M H) (g : ManifoldGuard P M)
    (vertices : List Nat) : ManifoldGuard P M × Option Nat :=
  let nb := vertices.length
  if nb < 3 then
    ({ g with num_faces_less_three_vertices :=
        g.num_faces_less_three_vertices + 1 }, none)
  else if hasDuplicateIndex vertices then
    ({ g with num_faces_duplicated_vertices :=
        g.num_faces_duplicated_vertices + 1 }, none)
  else
    let g1 := { g with input_face_vertices := vertices,
                       face_vertices := vertices }
    let g2 := (List.range nb).foldl
      (fun gg s => find_or_duplicate_edge ops gg s ((s + 1) % nb)) g1
    let r := ops.add_face g2.mesh g2.face_vertices
    ({ g2 with mesh := r.1 }, r.2)

/-- `ManifoldGuard::add_vertex` (lines 109-111): forward to the mesh. -/
def add_vertex (ops : MeshOps P M H) (g : ManifoldGuard P M) (p : P) :
    ManifoldGuard P M × Nat :=
  let r := ops.add_vertex g.mesh p
  ({ g with mesh := r.1 }, r.2)

/-- `ManifoldGuard::begin` (lines 42-53): reset the five counters, the two
working buffers and the copy relation. -/
def begin (g : ManifoldGuard P M) : ManifoldGuard P M :=
  { g with num_faces_less_three_vertices := 0,
           num_faces_duplicated_vertices := 0,
           num_non_manifold_edges := 0,
           num_non_manifold_vertices := 0,
           num_isolated_vertices := 0,
           input_face_vertices := [],
           face_vertices := [],
           copies := [] }

/-- `ManifoldGuard::finish` (lines 56-106): delete isolated vertices (one
counter bump per deletion), garbage-collect, recompute the non-manifold vertex
count over the remaining vertices, and report iff any counter is non-zero.
The returned boolean is the `LOG_IF` condition. -/
def finish (ops : MeshOps P M H) (g : ManifoldGuard P M) :
    ManifoldGuard P M × Bool :=
  let g1 := (ops.vertices g.mesh).foldl
    (fun gg v =>
      if ops.is_isolated gg.mesh v then
        { gg with mesh := ops.delete_vertex gg.mesh v,
                  num_isolated_vertices := gg.num_isolated_vertices + 1 }
      else gg) g
  let g2 := { g1 with mesh := ops.garbage_collection g1.mesh }
  let report1 := decide (0 < g2.num_isolated_vertices)
    || decide (0 < g2.num_faces_less_three_vertices)
    || decide (0 < g2.num_faces_duplicated_vertices)
    || decide (0 < g2.num_non_manifold_edges)
  let g3 := (ops.vertices g2.mesh).foldl
    (fun gg v =>
      if !ops.is_manifold gg.mesh v then
        { gg with num_non_manifold_vertices := gg.num_non_manifold_vertices + 1 }
      else gg) g2
  (g3, report1 || decide (0 < g3.num_non_manifold_vertices))

/-! ## Concrete half-edge mesh model

Modelled from the spec: the `SurfaceMesh` collaborator itself is not part of
the excerpt (only the guard is), so the operations the guard consumes
(§6 of the spec: vertex/face insertion, half-edge lookup, boundary / manifold
/ isolation queries, deletion, compaction, the position property) are modelled
here from the spec's data model (§3): a half-edge `s → t` exists iff some face
traverses `s → t` or `t → s`; it is interior iff some face traverses `s → t`;
a vertex is a boundary vertex iff it is isolated or has an outgoing boundary
half-edge. -/

/-- Directed cyclic edge list of one face (the wrap-around edge included). -/
def cyclePairs (f : List Nat) : List (Nat × Nat) :=
  (List.range f.length).map (fun i => (f.getD i 0, f.getD ((i + 1) % f.length) 0))

/-- Modelled from the spec: some face traverses the directed edge `s → t`,
i.e. the half-edge `s → t` exists and is interior (bound to a face). -/
def facesHasDirected (fs : List (List Nat)) (s t : Nat) : Bool :=
  fs.any (fun f => (cyclePairs f).contains (s, t))

/-- Modelled from the spec: the vertices connected to `v` by a half-edge. -/
def neighborsIn (fs : List (List Nat)) (v : Nat) : List Nat :=
  fs.foldr (fun f acc =>
    (cyclePairs f).foldr (fun pr acc2 =>
      if pr.1 == v then pr.2 :: acc2
      else if pr.2 == v then pr.1 :: acc2 else acc2) acc) []

/-- Modelled from the spec: minimal executable state of the half-edge mesh
collaborator — a fresh-handle counter, the alive vertices with their
positions, and the inserted faces. -/
structure SMesh (P : Type) where
  nextV : Nat
  verts : List (Nat × P)
  faces : List (List Nat)
deriving DecidableEq

/-- Modelled from the spec: the mesh-side operations consumed by the guard,
realised on `SMesh`.  Face insertion is rejected exactly when one of the
face's directed edges already exists as an interior half-edge; a vertex is
manifold iff it has at most one outgoing boundary half-edge. -/
def smeshOps (P : Type) [Inhabited P] : MeshOps P (SMesh P) (Nat × Nat) where
  find_halfedge m s t :=
    if facesHasDirected m.faces s t || facesHasDirected m.faces t s then
      some (s, t)
    else none
  is_boundary_h m h := !facesHasDirected m.faces h.1 h.2
  is_boundary_v m v :=
    (neighborsIn m.faces v).isEmpty ||
      (neighborsIn m.faces v).any (fun t => !facesHasDirected m.faces v t)
  add_vertex m p :=
    ({ m with nextV := m.nextV + 1, verts := m.verts ++ [(m.nextV, p)] }, m.nextV)
  add_face m vs :=
    if (cyclePairs vs).any (fun pr => facesHasDirected m.faces pr.1 pr.2) then
      (m, none)
    else ({ m with faces := m.faces ++ [vs] }, some m.faces.length)
  is_isolated m v := (neighborsIn m.faces v).isEmpty
  is_manifold m v :=
    decide (((neighborsIn m.faces v).dedup.filter
      (fun t => facesHasDirected m.faces t v && !facesHasDirected m.faces v t)).length ≤ 1)
  delete_vertex m v := { m with verts := m.verts.filter (fun q => !(q.1 == v)) }
  garbage_collection m := m
  point m v := ((m.verts.find? (fun q => q.1 == v)).map (fun q => q.2)).getD default
  vertices m := m.verts.map (fun q => q.1)

/-- A guard freshly constructed on a mesh (all counters and buffers zeroed,
as `begin` establishes). -/
def initialGuard (m : M) : ManifoldGuard P M :=
  { mesh := m, num_faces_less_three_vertices := 0,
    num_faces_duplicated_vertices := 0, num_non_manifold_edges := 0,
    num_non_manifold_vertices := 0, num_isolated_vertices := 0,
    input_face_vertices := [], face_vertices := [], copies := [] }

/-! ## Concrete session used by the end-to-end scenarios -/

/-- The model operations at the trivial position type. -/
def opsU : MeshOps Unit (SMesh Unit) (Nat × Nat) := smeshOps Unit

/-- The empty model mesh. -/
def mesh0 : SMesh Unit := { nextV := 0, verts := [], faces := [] }

/-- Session start: `begin` on a fresh guard over the empty mesh, then three
`add_vertex` calls (handles 0, 1, 2). -/
def guard3 : ManifoldGuard Unit (SMesh Unit) :=
  (add_vertex opsU
    (add_vertex opsU
      (add_vertex opsU (begin (initialGuard mesh0)) ()).1 ()).1 ()).1

/-- First `add_face([0,1,2])` call of scenario C. -/
def sessionC1 : ManifoldGuard Unit (SMesh Unit) × Option Nat :=
  add_face opsU guard3 [0, 1, 2]

/-- Second, identical `add_face([0,1,2])` call of scenario C. -/
def sessionC2 : ManifoldGuard Unit (SMesh Unit) × Option Nat :=
  add_face opsU sessionC1.1 [0, 1, 2]

/-! ## Specification-side reformulation of the edge-resolution algorithm

These definitions follow the words of §4.3 of the spec, to be compared with
the source translation above (claim C3). -/

/-- Spec §4.3: "legal" means the half-edge `s → t` does not already exist as
an interior (non-boundary) edge, and both `s` and `t` are currently boundary
vertices. -/
def legal_spec (ops : MeshOps P M H) (m : M) (s t : Nat) : Bool :=
  ((ops.find_halfedge m s t).isNone ||
    (ops.find_halfedge m s t).any (fun h => ops.is_boundary_h m h))
  && ops.is_boundary_v m s && ops.is_boundary_v m t

/-- Spec §4.3 steps 1-3: the substitute pairs, in the strict trial order —
every duplicate of `s` with the original `t`, then the original `s` with every
duplicate of `t`, then the full cross product (only when both have
duplicates). -/
def candidate_pairs (c : List (Nat × List Nat)) (fvs fvt : Nat) :
    List (Nat × Nat) :=
  (match lookupCopies c fvs with
   | some l => l.map (fun v => (v, fvt))
   | none => []) ++
  ((match lookupCopies c fvt with
    | some l => l.map (fun v => (fvs, v))
    | none => []) ++
   (match lookupCopies c fvs, lookupCopies c fvt with
    | some ls, some lt => ls.flatMap (fun a => lt.map (fun b => (a, b)))
    | _, _ => []))

/-- Spec §4.3 step 5: as a last resort, unconditionally duplicate whichever of
`s`, `t` still equals its original input vertex. -/
def last_resort_spec (ops : MeshOps P M H) (g : ManifoldGuard P M)
    (s t : Nat) : ManifoldGuard P M :=
  let g1 :=
    if g.face_vertices.getD s 0 = g.input_face_vertices.getD s 0 then
      let r := copy_vertex ops g (g.input_face_vertices.getD s 0)
      { r.1 with face_vertices := r.1.face_vertices.set s r.2 }
    else g
  if g1.face_vertices.getD t 0 = g1.input_face_vertices.getD t 0 then
    let r := copy_vertex ops g1 (g1.input_face_vertices.getD t 0)
    { r.1 with face_vertices := r.1.face_vertices.set t r.2 }
  else g1

/-- Spec §4.3 step 4, second half: when `t` is not a boundary vertex,
duplicate the original input vertex for `t` and retest. -/
def force_dup_t_spec (ops : MeshOps P M H) (g : ManifoldGuard P M)
    (s t : Nat) : ManifoldGuard P M :=
  if ops.is_boundary_v g.mesh (g.face_vertices.getD t 0) = false then
    let r := copy_vertex ops g (g.input_face_vertices.getD t 0)
    let g2 := { r.1 with face_vertices := r.1.face_vertices.set t r.2 }
    if legal_spec ops g2.mesh (g2.face_vertices.getD s 0)
        (g2.face_vertices.getD t 0) then g2
    else last_resort_spec ops g2 s t
  else last_resort_spec ops g s t

/-- Spec §4.3 step 4: when `s` is not a boundary vertex, duplicate the
original input vertex for `s` and retest legality with `t`; when still
illegal (or `s` was a boundary vertex), attempt the same for `t`; finally the
last resort. -/
def fallback_spec (ops : MeshOps P M H) (g : ManifoldGuard P M)
    (s t : Nat) : ManifoldGuard P M :=
  if ops.is_boundary_v g.mesh (g.face_vertices.getD s 0) = false then
    let r := copy_vertex ops g (g.input_face_vertices.getD s 0)
    let g2 := { r.1 with face_vertices := r.1.face_vertices.set s r.2 }
    if legal_spec ops g2.mesh (g2.face_vertices.getD s 0)
        (g2.face_vertices.getD t 0) then g2
    else force_dup_t_spec ops g2 s t
  else force_dup_t_spec ops g s t

/-- Spec §4.3: legality check; when illegal, increment the non-manifold-edge
counter, take the first legal substitute pair in the strict trial order, and
otherwise fall back to forced duplication. -/
def resolve_edge_spec (ops : MeshOps P M H) (g : ManifoldGuard P M)
    (s t : Nat) : ManifoldGuard P M :=
  let fvs := g.face_vertices.getD s 0
  let fvt := g.face_vertices.getD t 0
  if legal_spec ops g.mesh fvs fvt then g
  else
    let g1 := { g with num_non_manifold_edges := g.num_non_manifold_edges + 1 }
    match (candidate_pairs g1.copies fvs fvt).find?
        (fun pr => legal_spec ops g1.mesh pr.1 pr.2) with
    | some pr =>
      { g1 with face_vertices := (g1.face_vertices.set s pr.1).set t pr.2 }
    | none => fallback_spec ops g1 s t

/-- The copy relation `c'` extends `c`: every registered list is preserved and
at most appended to (entries are never removed or modified). -/
def growsTo (c c' : List (Nat × List Nat)) : Prop :=
  ∀ k l, lookupCopies c k = some l → ∃ l2, lookupCopies c' k = some (l ++ l2)

/-! ## Helper lemmas -/

lemma set_getD_self (l : List Nat) (i : Nat) : l.set i (l.getD i 0) = l := by
  rcases Nat.lt_or_ge i l.length with h | h
  · rw [List.getD_eq_getElem l 0 h]
    apply List.ext_getElem
    · simp
    · intro n h1 h2
      simp only [List.getElem_set]
      split
      · subst ‹i = n›; rfl
      · rfl
  · simp [List.set_eq_of_length_le h]

lemma getD_set_ne (l : List Nat) (i j v : Nat) (h : i ≠ j) :
    (l.set i v).getD j 0 = l.getD j 0 := by
  simp [List.getD, List.getElem?_set_ne h]

/-- The spec wording of edge legality agrees with
`ManifoldGuard::halfedge_is_legel`. -/
lemma legal_spec_eq (ops : MeshOps P M H) (m : M) (s t : Nat) :
    legal_spec ops m s t = halfedge_is_legel ops m s t := by
  unfold legal_spec halfedge_is_legel
  cases h : ops.find_halfedge m s t with
  | none =>
    cases hs : ops.is_boundary_v m s <;> cases ht : ops.is_boundary_v m t <;>
      simp [hs, ht]
  | some hh =>
    cases hb : ops.is_boundary_h m hh <;>
      cases hs : ops.is_boundary_v m s <;> cases ht : ops.is_boundary_v m t <;>
        simp [hb, hs, ht]

/-- `find?` over the flattened cross-product list is the nested two-level
search of the source. -/
lemma find?_flatMap_pairs (q : Nat × Nat → Bool) (lt : List Nat) :
    ∀ ls : List Nat,
      (ls.flatMap (fun a => lt.map (fun b => (a, b)))).find? q
        = findPair (fun vs vt => q (vs, vt)) ls lt := by
  intro ls
  induction ls with
  | nil => rfl
  | cons a rest ih =>
    rw [List.flatMap_cons, List.find?_append, List.find?_map]
    simp only [Function.comp_def]
    unfold findPair
    cases hf : lt.find? (fun vt => q (a, vt)) with
    | some vt => simp [hf]
    | none => simp [hf, ih]

/-- Effect of a `push_back` on the association-list lookups. -/
lemma lookupCopies_appendCopy :
    ∀ (c : List (Nat × List Nat)) (k nv k' : Nat),
      lookupCopies (appendCopy c k nv) k' =
        if k' = k then some ((lookupCopies c k).getD [] ++ [nv])
        else lookupCopies c k'
  | [], k, nv, k' => by
    by_cases h : k' = k
    · subst h; simp [appendCopy, lookupCopies]
    · have hb : (k == k') = false := beq_eq_false_iff_ne.mpr (fun hh => h hh.symm)
      simp [appendCopy, lookupCopies, hb, h]
  | (a, l) :: rest, k, nv, k' => by
    by_cases hak : a = k
    · subst hak
      by_cases h : k' = a
      · subst h
        simp [appendCopy, lookupCopies]
      · have hb : (a == k') = false := beq_eq_false_iff_ne.mpr (fun hh => h hh.symm)
        simp [appendCopy, lookupCopies, hb, h]
    · have hbak : (a == k) = false := beq_eq_false_iff_ne.mpr hak
      by_cases h : k' = a
      · have hb : (a == k') = true := beq_iff_eq.mpr h.symm
        have hkk : ¬ (k' = k) := fun hh => hak (h.symm.trans hh)
        simp [appendCopy, lookupCopies, hbak, hb, hkk]
      · have hb : (a == k') = false := beq_eq_false_iff_ne.mpr (fun hh => h hh.symm)
        simp [appendCopy, lookupCopies, hbak, hb,
          lookupCopies_appendCopy rest k nv k']

lemma hasDuplicateIndex_iff (l : List Nat) :
    hasDuplicateIndex l = true ↔ ¬ l.Nodup := by
  induction l with
  | nil => simp [hasDuplicateIndex]
  | cons x xs ih =>
    simp only [hasDuplicateIndex, Bool.or_eq_true, ih, List.nodup_cons,
      List.elem_iff]
    tauto

lemma foldl_fixed {α β : Type _} (f : α → β → α) (a : α) :
    ∀ L : List β, (∀ b ∈ L, f a b = a) → L.foldl f a = a := by
  intro L
  induction L with
  | nil => intro _; rfl
  | cons b L ih =>
    intro h
    rw [List.foldl_cons, h b (by simp)]
    exact ih (fun b' hb' => h b' (by simp [hb']))

lemma last_resort_eq (ops : MeshOps P M H) (g : ManifoldGuard P M) (s t : Nat) :
    last_resort_spec ops g s t = lastResort ops g s t := by
  unfold last_resort_spec lastResort
  simp only [beq_iff_eq]

lemma force_dup_t_eq (ops : MeshOps P M H) (g : ManifoldGuard P M) (s t : Nat) :
    force_dup_t_spec ops g s t = forceDupT ops g s t := by
  unfold force_dup_t_spec forceDupT
  simp only [legal_spec_eq, Bool.not_eq_true', last_resort_eq]

lemma fallback_eq (ops : MeshOps P M H) (g : ManifoldGuard P M) (s t : Nat) :
    fallback_spec ops g s t = fallbackDup ops g s t := by
  unfold fallback_spec fallbackDup
  simp only [legal_spec_eq, Bool.not_eq_true', force_dup_t_eq]

/-! ## Claim theorems -/

/-- C2: the guard's edge-legality predicate returns true iff the half-edge
`s → t` does not exist or exists as a boundary half-edge, and both `s` and `t`
are boundary vertices; and when the predicate is true for the edge `(s, t)` of
the face being inserted, edge resolution changes nothing at all. -/
theorem claim_C2 (ops : MeshOps P M H) (g : ManifoldGuard P M) (s t : Nat)
    (hleg : halfedge_is_legel ops g.mesh (g.face_vertices.getD s 0)
      (g.face_vertices.getD t 0) = true) :
    (∀ (m : M) (a b : Nat),
      halfedge_is_legel ops m a b = true ↔
        ((ops.find_halfedge m a b = none ∨
          ∃ h, ops.find_halfedge m a b = some h ∧ ops.is_boundary_h m h = true) ∧
         ops.is_boundary_v m a = true ∧ ops.is_boundary_v m b = true)) ∧
    find_or_duplicate_edge ops g s t = g := by
  constructor
  · intro m a b
    unfold halfedge_is_legel
    cases h : ops.find_halfedge m a b with
    | none =>
      cases ha : ops.is_boundary_v m a <;> cases hb : ops.is_boundary_v m b <;>
        simp [h, ha, hb]
    | some hh =>
      cases hbh : ops.is_boundary_h m hh <;>
        cases ha : ops.is_boundary_v m a <;> cases hb : ops.is_boundary_v m b <;>
          simp [h, hbh, ha, hb]
  · unfold find_or_duplicate_edge
    simp only [hleg, if_true]

/-- Witness for C2: on the session mesh holding three isolated vertices every
edge is legal, and resolution is a no-op. -/
theorem claim_C2_witness :
    halfedge_is_legel opsU guard3.mesh (guard3.face_vertices.getD 0 0)
        (guard3.face_vertices.getD 1 0) = true ∧
      find_or_duplicate_edge opsU guard3 0 1 = guard3 :=
  ⟨by decide, (claim_C2 opsU guard3 0 1 (by decide)).2⟩

/-- C3: for an illegal edge, resolution first increments the non-manifold-edge
counter and then takes the first legal substitute in the strict spec order
(copies of `s` with `t`, then `s` with copies of `t`, then the cross product
when both have copies, then forced duplication of the original input
vertices): the source routine coincides with the spec-worded
`resolve_edge_spec` on every state, for the distinct buffer slots `s ≠ t`
that `add_face` uses. -/
theorem claim_C3 (ops : MeshOps P M H) (g : ManifoldGuard P M) (s t : Nat)
    (hst : s ≠ t) :
    find_or_duplicate_edge ops g s t = resolve_edge_spec ops g s t := by
  unfold find_or_duplicate_edge resolve_edge_spec
  simp only [legal_spec_eq]
  cases hL : halfedge_is_legel ops g.mesh (g.face_vertices.getD s 0)
      (g.face_vertices.getD t 0) with
  | true => simp [hL]
  | false =>
    simp only [hL, Bool.false_eq_true, if_false]
    cases h1 : lookupCopies g.copies (g.face_vertices.getD s 0) with
    | none =>
      cases h2 : lookupCopies g.copies (g.face_vertices.getD t 0) with
      | none =>
        simp only [trialCopiesOfS, trialCopiesOfT, trialCross, candidate_pairs,
          h1, h2, fallback_eq, List.nil_append, List.append_nil, List.find?_nil]
      | some lt =>
        simp only [trialCopiesOfS, trialCopiesOfT, trialCross, candidate_pairs,
          h1, h2, fallback_eq, List.nil_append, List.append_nil, List.find?_nil,
          legal_spec_eq, List.find?_map, Function.comp_def]
        cases hf : lt.find?
            (fun v => halfedge_is_legel ops g.mesh (g.face_vertices.getD s 0) v) with
        | some v => simp only [hf, Option.map_some', set_getD_self]
        | none => simp only [hf, Option.map_none']
    | some ls =>
      cases h2 : lookupCopies g.copies (g.face_vertices.getD t 0) with
      | none =>
        simp only [trialCopiesOfS, trialCopiesOfT, trialCross, candidate_pairs,
          h1, h2, fallback_eq, List.nil_append, List.append_nil, List.find?_nil,
          legal_spec_eq, List.find?_map, Function.comp_def]
        cases hf : ls.find?
            (fun v => halfedge_is_legel ops g.mesh v (g.face_vertices.getD t 0)) with
        | some v =>
          have hset : (g.face_vertices.set s v).set t (g.face_vertices.getD t 0)
              = g.face_vertices.set s v := by
            conv_lhs => rw [← getD_set_ne g.face_vertices s t v hst]
            exact set_getD_self _ t
          simp only [hf, Option.map_some', hset]
        | none => simp only [hf, Option.map_none']
      | some lt =>
        simp only [trialCopiesOfS, trialCopiesOfT, trialCross, candidate_pairs,
          h1, h2, fallback_eq, List.find?_append, List.find?_map,
          find?_flatMap_pairs, Function.comp_def, legal_spec_eq]
        cases hf1 : ls.find?
            (fun v => halfedge_is_legel ops g.mesh v (g.face_vertices.getD t 0)) with
        | some v =>
          have hset : (g.face_vertices.set s v).set t (g.face_vertices.getD t 0)
              = g.face_vertices.set s v := by
            conv_lhs => rw [← getD_set_ne g.face_vertices s t v hst]
            exact set_getD_self _ t
          simp only [hf1, Option.map_some', Option.or_some, hset]
        | none =>
          simp only [hf1, Option.map_none', Option.none_or]
          cases hf2 : lt.find?
              (fun v => halfedge_is_legel ops g.mesh (g.face_vertices.getD s 0) v) with
          | some v => simp only [hf2, Option.map_some', Option.or_some, set_getD_self]
          | none =>
            simp only [hf2, Option.map_none', Option.none_or]
            cases hf3 : findPair
                (fun vs vt => halfedge_is_legel ops g.mesh vs vt) ls lt with
            | some pr => simp only [hf3]
            | none => simp only [hf3]

/-- Witness for C3: the resolution of the first edge of the duplicated face of
scenario C agrees with the spec-side formulation. -/
theorem claim_C3_witness :
    (0 : Nat) ≠ 1 ∧
      find_or_duplicate_edge opsU sessionC1.1 0 1
        = resolve_edge_spec opsU sessionC1.1 0 1 :=
  ⟨by decide, claim_C3 opsU sessionC1.1 0 1 (by decide)⟩

/-- C5: a face list with fewer than three entries, or with a repeated entry,
is rejected with an invalid handle: exactly one of the two validation
counters is incremented, by one, and the mesh, the buffers, the copy relation
and the other counters are untouched. -/
theorem claim_C5 (ops : MeshOps P M H) (g : ManifoldGuard P M) (l : List Nat)
    (h : l.length < 3 ∨ ¬ l.Nodup) :
    (add_face ops g l).2 = none ∧
    (add_face ops g l).1.mesh = g.mesh ∧
    (add_face ops g l).1.input_face_vertices = g.input_face_vertices ∧
    (add_face ops g l).1.face_vertices = g.face_vertices ∧
    (add_face ops g l).1.copies = g.copies ∧
    (add_face ops g l).1.num_non_manifold_edges = g.num_non_manifold_edges ∧
    (add_face ops g l).1.num_non_manifold_vertices = g.num_non_manifold_vertices ∧
    (add_face ops g l).1.num_isolated_vertices = g.num_isolated_vertices ∧
    (if l.length < 3 then
      (add_face ops g l).1.num_faces_less_three_vertices
          = g.num_faces_less_three_vertices + 1 ∧
      (add_face ops g l).1.num_faces_duplicated_vertices
          = g.num_faces_duplicated_vertices
     else
      (add_face ops g l).1.num_faces_less_three_vertices
          = g.num_faces_less_three_vertices ∧
      (add_face ops g l).1.num_faces_duplicated_vertices
          = g.num_faces_duplicated_vertices + 1) := by
  by_cases hlen : l.length < 3
  · simp [add_face, hlen]
  · have hdup : hasDuplicateIndex l = true :=
      (hasDuplicateIndex_iff l).mpr (h.resolve_left hlen)
    simp [add_face, hlen, hdup]

/-- Witness for C5: the empty face list is rejected with an invalid handle. -/
theorem claim_C5_witness :
    (add_face opsU guard3 ([] : List Nat)).2 = none ∧
      (add_face opsU guard3 ([] : List Nat)).1.mesh = guard3.mesh :=
  ⟨(claim_C5 opsU guard3 [] (Or.inl (by decide))).1,
   (claim_C5 opsU guard3 [] (Or.inl (by decide))).2.1⟩

/-- C10: `add_vertex` only forwards the position to the mesh and returns the
handle; every counter, the copy relation and both working buffers are
untouched. -/
theorem claim_C10 (ops : MeshOps P M H) (g : ManifoldGuard P M) (p : P) :
    (add_vertex ops g p).2 = (ops.add_vertex g.mesh p).2 ∧
    (add_vertex ops g p).1.mesh = (ops.add_vertex g.mesh p).1 ∧
    (add_vertex ops g p).1.num_faces_less_three_vertices
        = g.num_faces_less_three_vertices ∧
    (add_vertex ops g p).1.num_faces_duplicated_vertices
        = g.num_faces_duplicated_vertices ∧
    (add_vertex ops g p).1.num_non_manifold_edges = g.num_non_manifold_edges ∧
    (add_vertex ops g p).1.num_non_manifold_vertices
        = g.num_non_manifold_vertices ∧
    (add_vertex ops g p).1.num_isolated_vertices = g.num_isolated_vertices ∧
    (add_vertex ops g p).1.copies = g.copies ∧
    (add_vertex ops g p).1.input_face_vertices = g.input_face_vertices ∧
    (add_vertex ops g p).1.face_vertices = g.face_vertices :=
  ⟨rfl, rfl, rfl, rfl, rfl, rfl, rfl, rfl, rfl, rfl⟩

/-- C6: a face that passes both validations and all of whose consecutive
edges (wrap-around included) are already legal is handed to the mesh's face
insertion exactly as given: the buffers hold the caller's sequence unchanged,
and no counter, no copy and no duplication happens (the result differs from
`g` only in the two buffers and the mesh insertion). -/
theorem claim_C6 (ops : MeshOps P M H) (g : ManifoldGuard P M) (l : List Nat)
    (h3 : 3 ≤ l.length) (hnd : l.Nodup)
    (hleg : ∀ i, i < l.length →
      halfedge_is_legel ops g.mesh (l.getD i 0) (l.getD ((i + 1) % l.length) 0) = true) :
    add_face ops g l =
      ({ g with input_face_vertices := l, face_vertices := l,
                mesh := (ops.add_face g.mesh l).1 }, (ops.add_face g.mesh l).2) := by
  have hlen : ¬ (l.length < 3) := by omega
  have hdup : ¬ (hasDuplicateIndex l = true) := by
    intro hh
    exact (hasDuplicateIndex_iff l).mp hh hnd
  unfold add_face
  rw [if_neg hlen, if_neg hdup]
  have hfold : (List.range l.length).foldl
      (fun gg s => find_or_duplicate_edge ops gg s ((s + 1) % l.length))
      { g with input_face_vertices := l, face_vertices := l }
      = { g with input_face_vertices := l, face_vertices := l } := by
    apply foldl_fixed
    intro s hs
    have hs' : s < l.length := List.mem_range.mp hs
    unfold find_or_duplicate_edge
    simp only [hleg s hs', if_true]
  simp only [hfold]

/-- Witness for C6: the first face of the session, added on a mesh of three
isolated vertices, goes through unchanged with no copies. -/
theorem claim_C6_witness :
    (add_face opsU guard3 [0, 1, 2]).1.face_vertices = [0, 1, 2] ∧
      (add_face opsU guard3 [0, 1, 2]).1.copies = guard3.copies ∧
      (add_face opsU guard3 [0, 1, 2]).1.num_non_manifold_edges
        = guard3.num_non_manifold_edges := by
  have h := claim_C6 opsU guard3 [0, 1, 2] (by decide) (by decide)
    (by
      intro i hi
      have hc : i = 0 ∨ i = 1 ∨ i = 2 := by
        simp only [List.length_cons, List.length_nil] at hi
        omega
      rcases hc with h0 | h0 | h0 <;> subst h0 <;> decide)
  rw [h]
  exact ⟨rfl, rfl, rfl⟩

/-- C4: when resolution of an illegal edge falls through every substitute
trial and both endpoints are boundary vertices, the last-resort step runs with
both slots still holding their originals and duplicates both endpoints
unconditionally — the hypothesis `_hLegalAfter`, stating that duplicating `s`
alone would already make the edge legal, is never consulted (no re-check
happens before the second duplication); and when exactly one slot still
equals its original, only that endpoint is duplicated. -/
theorem claim_C4 (ops : MeshOps P M H) (g : ManifoldGuard P M) (s t : Nat)
    (hst : s ≠ t)
    (hIll : halfedge_is_legel ops g.mesh (g.face_vertices.getD s 0)
      (g.face_vertices.getD t 0) = false)
    (hcs : lookupCopies g.copies (g.face_vertices.getD s 0) = none)
    (hct : lookupCopies g.copies (g.face_vertices.getD t 0) = none)
    (hbs : ops.is_boundary_v g.mesh (g.face_vertices.getD s 0) = true)
    (hbt : ops.is_boundary_v g.mesh (g.face_vertices.getD t 0) = true)
    (hs : g.face_vertices.getD s 0 = g.input_face_vertices.getD s 0)
    (ht : g.face_vertices.getD t 0 = g.input_face_vertices.getD t 0)
    (_hLegalAfter : halfedge_is_legel ops
      (ops.add_vertex g.mesh (ops.point g.mesh (g.input_face_vertices.getD s 0))).1
      (ops.add_vertex g.mesh (ops.point g.mesh (g.input_face_vertices.getD s 0))).2
      (g.face_vertices.getD t 0) = true) :
    (let gb : ManifoldGuard P M :=
        { g with num_non_manifold_edges := g.num_non_manifold_edges + 1 }
     let c1 := copy_vertex ops gb (g.input_face_vertices.getD s 0)
     let g1 : ManifoldGuard P M :=
        { c1.1 with face_vertices := c1.1.face_vertices.set s c1.2 }
     let c2 := copy_vertex ops g1 (g.input_face_vertices.getD t 0)
     find_or_duplicate_edge ops g s t
        = { c2.1 with face_vertices := c2.1.face_vertices.set t c2.2 }) ∧
    (∀ (ops2 : MeshOps P M H) (g2 : ManifoldGuard P M) (s2 t2 : Nat),
      g2.face_vertices.getD s2 0 ≠ g2.input_face_vertices.getD s2 0 →
      g2.face_vertices.getD t2 0 = g2.input_face_vertices.getD t2 0 →
      lastResort ops2 g2 s2 t2 =
        (let r := copy_vertex ops2 g2 (g2.input_face_vertices.getD t2 0)
         { r.1 with face_vertices := r.1.face_vertices.set t2 r.2 })) ∧
    (∀ (ops2 : MeshOps P M H) (g2 : ManifoldGuard P M) (s2 t2 : Nat),
      g2.face_vertices.getD s2 0 = g2.input_face_vertices.getD s2 0 →
      g2.face_vertices.getD t2 0 ≠ g2.input_face_vertices.getD t2 0 →
      lastResort ops2 g2 s2 t2 =
        (let r := copy_vertex ops2 g2 (g2.input_face_vertices.getD s2 0)
         { r.1 with face_vertices := r.1.face_vertices.set s2 r.2 })) := by
  refine ⟨?_, ?_, ?_⟩
  · unfold find_or_duplicate_edge
    simp only [hIll, Bool.false_eq_true, if_false]
    rw [show trialCopiesOfS ops
        { g with num_non_manifold_edges := g.num_non_manifold_edges + 1 } s t = none by
      unfold trialCopiesOfS
      simp only [hcs]]
    rw [show trialCopiesOfT ops
        { g with num_non_manifold_edges := g.num_non_manifold_edges + 1 } s t = none by
      unfold trialCopiesOfT
      simp only [hct]]
    rw [show trialCross ops
        { g with num_non_manifold_edges := g.num_non_manifold_edges + 1 } s t = none by
      unfold trialCross
      simp only [hcs, hct]]
    unfold fallbackDup forceDupT
    simp only [hbs, hbt, Bool.not_true, Bool.false_eq_true, if_false]
    unfold lastResort
    simp only [beq_iff_eq, hs, if_true, copy_vertex]
    rw [if_pos (by rw [getD_set_ne _ _ _ _ hst]; exact ht)]
  · intro ops2 g2 s2 t2 hne heq
    unfold lastResort
    simp only [beq_iff_eq, hne, if_false, heq, if_true]
  · intro ops2 g2 s2 t2 heq hne
    have hst2 : s2 ≠ t2 := fun hh => hne (hh ▸ heq)
    unfold lastResort
    simp only [beq_iff_eq, heq, if_true]
    rw [if_neg (by rw [getD_set_ne _ _ _ _ hst2]; exact hne)]

/-- Witness for C4: the first edge of the duplicated face of scenario C
reaches the last resort with both slots original; both endpoints are
duplicated (copies of vertex 0 and vertex 1) even though duplicating vertex 0
alone would already have made the edge legal. -/
theorem claim_C4_witness :
    (find_or_duplicate_edge opsU sessionC1.1 0 1).copies = [(0, [3]), (1, [4])] ∧
      (find_or_duplicate_edge opsU sessionC1.1 0 1).face_vertices = [3, 4, 2] := by
  have h := (claim_C4 opsU sessionC1.1 0 1 (by decide) (by decide) (by decide)
    (by decide) (by decide) (by decide) (by decide) (by decide) (by decide)).1
  rw [h]
  exact ⟨by decide, by decide⟩


/-- The last-resort step writes the copy relation only under the two original
input-vertex keys. -/
lemma lastResort_copies_frame (ops : MeshOps P M H) (g : ManifoldGuard P M)
    (s t k : Nat) (hks : k ≠ g.input_face_vertices.getD s 0)
    (hkt : k ≠ g.input_face_vertices.getD t 0) :
    lookupCopies ((lastResort ops g s t).copies) k = lookupCopies g.copies k := by
  unfold lastResort copy_vertex
  dsimp only
  split <;> split <;>
    simp only [lookupCopies_appendCopy, eq_false hks, eq_false hkt, if_false]

/-- Forced duplication of `t` writes the copy relation only under the two
original input-vertex keys. -/
lemma forceDupT_copies_frame (ops : MeshOps P M H) (g : ManifoldGuard P M)
    (s t k : Nat) (hks : k ≠ g.input_face_vertices.getD s 0)
    (hkt : k ≠ g.input_face_vertices.getD t 0) :
    lookupCopies ((forceDupT ops g s t).copies) k = lookupCopies g.copies k := by
  unfold forceDupT
  dsimp only
  split
  · split
    · simp only [copy_vertex, lookupCopies_appendCopy, eq_false hkt, if_false]
    · rw [lastResort_copies_frame]
      · simp only [copy_vertex, lookupCopies_appendCopy, eq_false hkt, if_false]
      · exact hks
      · exact hkt
  · exact lastResort_copies_frame _ _ _ _ _ hks hkt

/-- The whole forced-duplication fallback writes the copy relation only under
the two original input-vertex keys. -/
lemma fallbackDup_copies_frame (ops : MeshOps P M H) (g : ManifoldGuard P M)
    (s t k : Nat) (hks : k ≠ g.input_face_vertices.getD s 0)
    (hkt : k ≠ g.input_face_vertices.getD t 0) :
    lookupCopies ((fallbackDup ops g s t).copies) k = lookupCopies g.copies k := by
  unfold fallbackDup
  dsimp only
  split
  · split
    · simp only [copy_vertex, lookupCopies_appendCopy, eq_false hks, if_false]
    · rw [forceDupT_copies_frame]
      · simp only [copy_vertex, lookupCopies_appendCopy, eq_false hks, if_false]
      · exact hks
      · exact hkt
  · exact forceDupT_copies_frame _ _ _ _ _ hks hkt

/-- A successful first trial leaves the copy relation unchanged. -/
lemma trialCopiesOfS_copies (ops : MeshOps P M H) (g : ManifoldGuard P M)
    (s t : Nat) (r : ManifoldGuard P M) (h : trialCopiesOfS ops g s t = some r) :
    r.copies = g.copies := by
  unfold trialCopiesOfS at h
  cases hc : lookupCopies g.copies (g.face_vertices.getD s 0) with
  | none => simp only [hc] at h; exact Option.noConfusion h
  | some l =>
    simp only [hc] at h
    cases hf : l.find?
        (fun v => halfedge_is_legel ops g.mesh v (g.face_vertices.getD t 0)) with
    | none => simp only [hf] at h; exact Option.noConfusion h
    | some v =>
      simp only [hf, Option.some.injEq] at h
      rw [← h]

/-- A successful second trial leaves the copy relation unchanged. -/
lemma trialCopiesOfT_copies (ops : MeshOps P M H) (g : ManifoldGuard P M)
    (s t : Nat) (r : ManifoldGuard P M) (h : trialCopiesOfT ops g s t = some r) :
    r.copies = g.copies := by
  unfold trialCopiesOfT at h
  cases hc : lookupCopies g.copies (g.face_vertices.getD t 0) with
  | none => simp only [hc] at h; exact Option.noConfusion h
  | some l =>
    simp only [hc] at h
    cases hf : l.find?
        (fun v => halfedge_is_legel ops g.mesh (g.face_vertices.getD s 0) v) with
    | none => simp only [hf] at h; exact Option.noConfusion h
    | some v =>
      simp only [hf, Option.some.injEq] at h
      rw [← h]

/-- A successful cross-product trial leaves the copy relation unchanged. -/
lemma trialCross_copies (ops : MeshOps P M H) (g : ManifoldGuard P M)
    (s t : Nat) (r : ManifoldGuard P M) (h : trialCross ops g s t = some r) :
    r.copies = g.copies := by
  unfold trialCross at h
  cases hc1 : lookupCopies g.copies (g.face_vertices.getD s 0) with
  | none => simp only [hc1] at h; exact Option.noConfusion h
  | some ls =>
    cases hc2 : lookupCopies g.copies (g.face_vertices.getD t 0) with
    | none => simp only [hc1, hc2] at h; exact Option.noConfusion h
    | some lt =>
      simp only [hc1, hc2] at h
      cases hf : findPair (fun vs vt => halfedge_is_legel ops g.mesh vs vt) ls lt with
      | none => simp only [hf] at h; exact Option.noConfusion h
      | some pr =>
        simp only [hf, Option.some.injEq] at h
        rw [← h]

/-- C9: the three trial steps consult the duplicate lists only through the
current working-buffer handles — two copy relations agreeing at those two
keys drive the trials identically — and the duplication fallback goes back to
the original input vertices: every other key of the copy relation is left
untouched by edge resolution. -/
theorem claim_C9 (ops : MeshOps P M H) (g : ManifoldGuard P M)
    (c2 : List (Nat × List Nat)) (s t : Nat)
    (h1 : lookupCopies g.copies (g.face_vertices.getD s 0)
        = lookupCopies c2 (g.face_vertices.getD s 0))
    (h2 : lookupCopies g.copies (g.face_vertices.getD t 0)
        = lookupCopies c2 (g.face_vertices.getD t 0)) :
    (trialCopiesOfS ops { g with copies := c2 } s t
       = (trialCopiesOfS ops g s t).map (fun r => { r with copies := c2 })) ∧
    (trialCopiesOfT ops { g with copies := c2 } s t
       = (trialCopiesOfT ops g s t).map (fun r => { r with copies := c2 })) ∧
    (trialCross ops { g with copies := c2 } s t
       = (trialCross ops g s t).map (fun r => { r with copies := c2 })) ∧
    (∀ k, k ≠ g.input_face_vertices.getD s 0 →
      k ≠ g.input_face_vertices.getD t 0 →
      lookupCopies ((find_or_duplicate_edge ops g s t).copies) k
        = lookupCopies g.copies k) := by
  refine ⟨?_, ?_, ?_, ?_⟩
  · unfold trialCopiesOfS
    dsimp only
    rw [← h1]
    cases hc : lookupCopies g.copies (g.face_vertices.getD s 0) with
    | none => rfl
    | some l =>
      simp only []
      cases hf : l.find?
          (fun v => halfedge_is_legel ops g.mesh v (g.face_vertices.getD t 0)) with
      | none => simp only [hf, Option.map_none']
      | some v => simp only [hf, Option.map_some']
  · unfold trialCopiesOfT
    dsimp only
    rw [← h2]
    cases hc : lookupCopies g.copies (g.face_vertices.getD t 0) with
    | none => rfl
    | some l =>
      simp only []
      cases hf : l.find?
          (fun v => halfedge_is_legel ops g.mesh (g.face_vertices.getD s 0) v) with
      | none => simp only [hf, Option.map_none']
      | some v => simp only [hf, Option.map_some']
  · unfold trialCross
    dsimp only
    rw [← h1, ← h2]
    cases hc1 : lookupCopies g.copies (g.face_vertices.getD s 0) with
    | none => rfl
    | some ls =>
      cases hc2 : lookupCopies g.copies (g.face_vertices.getD t 0) with
      | none => rfl
      | some lt =>
        simp only []
        cases hf : findPair (fun vs vt => halfedge_is_legel ops g.mesh vs vt) ls lt with
        | none => simp only [hf, Option.map_none']
        | some pr => simp only [hf, Option.map_some']
  · intro k hks hkt
    unfold find_or_duplicate_edge
    split
    · rfl
    · cases hS : trialCopiesOfS ops
          { g with num_non_manifold_edges := g.num_non_manifold_edges + 1 } s t with
      | some r =>
        simp only [hS]
        have hcop := trialCopiesOfS_copies ops
          { g with num_non_manifold_edges := g.num_non_manifold_edges + 1 } s t r hS
        rw [hcop]
      | none =>
        simp only [hS]
        cases hT : trialCopiesOfT ops
            { g with num_non_manifold_edges := g.num_non_manifold_edges + 1 } s t with
        | some r =>
          simp only [hT]
          have hcop := trialCopiesOfT_copies ops
            { g with num_non_manifold_edges := g.num_non_manifold_edges + 1 } s t r hT
          rw [hcop]
        | none =>
          simp only [hT]
          cases hX : trialCross ops
              { g with num_non_manifold_edges := g.num_non_manifold_edges + 1 } s t with
          | some r =>
            simp only [hX]
            have hcop := trialCross_copies ops
              { g with num_non_manifold_edges := g.num_non_manifold_edges + 1 } s t r hX
            rw [hcop]
          | none =>
            simp only [hX]
            exact fallbackDup_copies_frame _ _ _ _ _ hks hkt

/-- Witness for C9: edge resolution of the scenario-C state never touches the
copy entry of an unrelated key. -/
theorem claim_C9_witness :
    lookupCopies ((find_or_duplicate_edge opsU sessionC1.1 0 1).copies) 5
      = lookupCopies sessionC1.1.copies 5 :=
  (claim_C9 opsU sessionC1.1 [(7, [9])] 0 1 (by decide) (by decide)).2.2.2 5
    (by decide) (by decide)


/-- Reflexivity of copy-relation growth. -/
lemma growsTo_refl (c : List (Nat × List Nat)) : growsTo c c :=
  fun _ l h => ⟨[], by simpa using h⟩

/-- Transitivity of copy-relation growth. -/
lemma growsTo_trans {a b c : List (Nat × List Nat)}
    (h1 : growsTo a b) (h2 : growsTo b c) : growsTo a c := by
  intro k l h
  obtain ⟨l2, hb⟩ := h1 k l h
  obtain ⟨l3, hc⟩ := h2 k (l ++ l2) hb
  exact ⟨l2 ++ l3, by rw [hc, List.append_assoc]⟩

/-- A `push_back` only grows the copy relation. -/
lemma growsTo_appendCopy (c : List (Nat × List Nat)) (k nv : Nat) :
    growsTo c (appendCopy c k nv) := by
  intro k' l h
  rw [lookupCopies_appendCopy]
  by_cases hk : k' = k
  · subst hk
    rw [if_pos rfl, h]
    exact ⟨[nv], rfl⟩
  · rw [if_neg hk]
    exact ⟨[], by simpa using h⟩

/-- The last-resort step only grows the copy relation. -/
lemma lastResort_grows (ops : MeshOps P M H) (g : ManifoldGuard P M) (s t : Nat) :
    growsTo g.copies ((lastResort ops g s t).copies) := by
  unfold lastResort copy_vertex
  dsimp only
  split
  · split
    · exact growsTo_trans (growsTo_appendCopy _ _ _) (growsTo_appendCopy _ _ _)
    · exact growsTo_appendCopy _ _ _
  · split
    · exact growsTo_appendCopy _ _ _
    · exact growsTo_refl _

/-- Forced duplication of `t` only grows the copy relation. -/
lemma forceDupT_grows (ops : MeshOps P M H) (g : ManifoldGuard P M) (s t : Nat) :
    growsTo g.copies ((forceDupT ops g s t).copies) := by
  unfold forceDupT copy_vertex
  dsimp only
  split
  · split
    · exact growsTo_appendCopy _ _ _
    · refine growsTo_trans ?_ (lastResort_grows _ _ _ _)
      exact growsTo_appendCopy _ _ _
  · exact lastResort_grows _ _ _ _

/-- The duplication fallback only grows the copy relation. -/
lemma fallbackDup_grows (ops : MeshOps P M H) (g : ManifoldGuard P M) (s t : Nat) :
    growsTo g.copies ((fallbackDup ops g s t).copies) := by
  unfold fallbackDup copy_vertex
  dsimp only
  split
  · split
    · exact growsTo_appendCopy _ _ _
    · refine growsTo_trans ?_ (forceDupT_grows _ _ _ _)
      exact growsTo_appendCopy _ _ _
  · exact forceDupT_grows _ _ _ _

/-- Edge resolution only grows the copy relation. -/
lemma find_or_duplicate_edge_grows (ops : MeshOps P M H) (g : ManifoldGuard P M)
    (s t : Nat) : growsTo g.copies ((find_or_duplicate_edge ops g s t).copies) := by
  unfold find_or_duplicate_edge
  split
  · exact growsTo_refl _
  · cases hS : trialCopiesOfS ops
        { g with num_non_manifold_edges := g.num_non_manifold_edges + 1 } s t with
    | some r =>
      simp only [hS]
      rw [trialCopiesOfS_copies ops _ s t r hS]
      exact growsTo_refl _
    | none =>
      simp only [hS]
      cases hT : trialCopiesOfT ops
          { g with num_non_manifold_edges := g.num_non_manifold_edges + 1 } s t with
      | some r =>
        simp only [hT]
        rw [trialCopiesOfT_copies ops _ s t r hT]
        exact growsTo_refl _
      | none =>
        simp only [hT]
        cases hX : trialCross ops
            { g with num_non_manifold_edges := g.num_non_manifold_edges + 1 } s t with
        | some r =>
          simp only [hX]
          rw [trialCross_copies ops _ s t r hX]
          exact growsTo_refl _
        | none =>
          simp only [hX]
          exact fallbackDup_grows ops
            { g with num_non_manifold_edges := g.num_non_manifold_edges + 1 } s t

/-- A fold of growth-preserving steps preserves growth. -/
lemma foldl_growsTo {P' M' : Type}
    (f : ManifoldGuard P' M' → Nat → ManifoldGuard P' M')
    (h : ∀ gg s, growsTo gg.copies ((f gg s).copies)) :
    ∀ (L : List Nat) (gg : ManifoldGuard P' M'),
      growsTo gg.copies ((L.foldl f gg).copies)
  | [], _ => growsTo_refl _
  | a :: L, gg => growsTo_trans (h gg a) (foldl_growsTo f h L (f gg a))

/-- A fold of steps that keep the copy relation keeps the copy relation. -/
lemma foldl_copies_fixed {P' M' : Type}
    (f : ManifoldGuard P' M' → Nat → ManifoldGuard P' M')
    (h : ∀ gg v, (f gg v).copies = gg.copies) :
    ∀ (L : List Nat) (gg : ManifoldGuard P' M'),
      ((L.foldl f gg).copies) = gg.copies
  | [], _ => rfl
  | a :: L, gg => by rw [List.foldl_cons, foldl_copies_fixed f h L (f gg a), h]

/-- `finish` never touches the copy relation. -/
lemma finish_copies (ops : MeshOps P M H) (g : ManifoldGuard P M) :
    (finish ops g).1.copies = g.copies := by
  have h1 := foldl_copies_fixed
    (fun (gg : ManifoldGuard P M) v =>
      if ops.is_isolated gg.mesh v then
        { gg with mesh := ops.delete_vertex gg.mesh v,
                  num_isolated_vertices := gg.num_isolated_vertices + 1 }
      else gg)
    (fun gg v => by beta_reduce; split <;> rfl)
  have h2 := foldl_copies_fixed
    (fun (gg : ManifoldGuard P M) v =>
      if !ops.is_manifold gg.mesh v then
        { gg with num_non_manifold_vertices := gg.num_non_manifold_vertices + 1 }
      else gg)
    (fun gg v => by beta_reduce; split <;> rfl)
  unfold finish
  dsimp only
  rw [h2, h1]

/-- C7: copy-relation invariant.  `begin` clears the relation; every
duplicated vertex is appended under the key of the vertex it was copied from
and (in the mesh model) carries exactly the position of that vertex; and each
session operation (`add_face`, `add_vertex`, `finish`) only ever appends to
the registered lists, never removing or modifying entries. -/
theorem claim_C7 {Q : Type} [Inhabited Q] (gc : ManifoldGuard Q (SMesh Q)) (v : Nat)
    (hwf : ∀ q ∈ gc.mesh.verts, q.1 < gc.mesh.nextV) :
    (∀ {P' M' : Type} (g : ManifoldGuard P' M'), (begin g).copies = []) ∧
    (∀ {P' M' H' : Type} (ops : MeshOps P' M' H') (g : ManifoldGuard P' M') (w : Nat),
      (copy_vertex ops g w).1.copies = appendCopy g.copies w (copy_vertex ops g w).2) ∧
    ((smeshOps Q).point (copy_vertex (smeshOps Q) gc v).1.mesh
        (copy_vertex (smeshOps Q) gc v).2 = (smeshOps Q).point gc.mesh v) ∧
    (∀ {P' M' H' : Type} (ops : MeshOps P' M' H') (g : ManifoldGuard P' M')
      (l : List Nat), growsTo g.copies ((add_face ops g l).1.copies)) ∧
    (∀ {P' M' H' : Type} (ops : MeshOps P' M' H') (g : ManifoldGuard P' M')
      (p : P'), (add_vertex ops g p).1.copies = g.copies) ∧
    (∀ {P' M' H' : Type} (ops : MeshOps P' M' H') (g : ManifoldGuard P' M'),
      (finish ops g).1.copies = g.copies) := by
  refine ⟨fun g => rfl, fun ops g w => rfl, ?_, ?_, fun ops g p => rfl,
    fun ops g => finish_copies ops g⟩
  · unfold copy_vertex smeshOps
    dsimp only
    rw [List.find?_append]
    rw [show gc.mesh.verts.find? (fun q => q.1 == gc.mesh.nextV) = none from
      List.find?_eq_none.mpr (fun q hq => by
        simpa using Nat.ne_of_lt (hwf q hq))]
    simp
  · intro P' M' H' ops g l
    unfold add_face
    dsimp only
    split
    · exact growsTo_refl _
    · split
      · exact growsTo_refl _
      · exact foldl_growsTo _
          (fun gg s => find_or_duplicate_edge_grows ops gg s ((s + 1) % l.length))
          (List.range l.length)
          { g with input_face_vertices := l, face_vertices := l }

/-- Witness for C7: copying vertex 0 of the session mesh creates a vertex at
the same position. -/
theorem claim_C7_witness :
    (smeshOps Unit).point (copy_vertex (smeshOps Unit) guard3 0).1.mesh
        (copy_vertex (smeshOps Unit) guard3 0).2
      = (smeshOps Unit).point guard3.mesh 0 :=
  (claim_C7 guard3 0 (by decide)).2.2.1

/-- Characterisation of the isolated-vertex deletion loop of `finish` on the
mesh model: faces are untouched, the counter grows by one per isolated vertex
of the iteration list, exactly the listed isolated vertices disappear from the
vertex store, and the remaining counters are untouched. -/
lemma iso_fold {Q : Type} [Inhabited Q] :
    ∀ (vs : List Nat) (gg : ManifoldGuard Q (SMesh Q)),
      (vs.foldl (fun gg v =>
          if (smeshOps Q).is_isolated gg.mesh v then
            { gg with mesh := (smeshOps Q).delete_vertex gg.mesh v,
                      num_isolated_vertices := gg.num_isolated_vertices + 1 }
          else gg) gg).mesh.faces = gg.mesh.faces ∧
      (vs.foldl (fun gg v =>
          if (smeshOps Q).is_isolated gg.mesh v then
            { gg with mesh := (smeshOps Q).delete_vertex gg.mesh v,
                      num_isolated_vertices := gg.num_isolated_vertices + 1 }
          else gg) gg).num_isolated_vertices = gg.num_isolated_vertices
          + (vs.filter (fun v => (neighborsIn gg.mesh.faces v).isEmpty)).length ∧
      (vs.foldl (fun gg v =>
          if (smeshOps Q).is_isolated gg.mesh v then
            { gg with mesh := (smeshOps Q).delete_vertex gg.mesh v,
                      num_isolated_vertices := gg.num_isolated_vertices + 1 }
          else gg) gg).mesh.verts = gg.mesh.verts.filter
          (fun q => !(vs.contains q.1 && (neighborsIn gg.mesh.faces q.1).isEmpty)) ∧
      (vs.foldl (fun gg v =>
          if (smeshOps Q).is_isolated gg.mesh v then
            { gg with mesh := (smeshOps Q).delete_vertex gg.mesh v,
                      num_isolated_vertices := gg.num_isolated_vertices + 1 }
          else gg) gg).num_faces_less_three_vertices = gg.num_faces_less_three_vertices ∧
      (vs.foldl (fun gg v =>
          if (smeshOps Q).is_isolated gg.mesh v then
            { gg with mesh := (smeshOps Q).delete_vertex gg.mesh v,
                      num_isolated_vertices := gg.num_isolated_vertices + 1 }
          else gg) gg).num_faces_duplicated_vertices = gg.num_faces_duplicated_vertices ∧
      (vs.foldl (fun gg v =>
          if (smeshOps Q).is_isolated gg.mesh v then
            { gg with mesh := (smeshOps Q).delete_vertex gg.mesh v,
                      num_isolated_vertices := gg.num_isolated_vertices + 1 }
          else gg) gg).num_non_manifold_edges = gg.num_non_manifold_edges ∧
      (vs.foldl (fun gg v =>
          if (smeshOps Q).is_isolated gg.mesh v then
            { gg with mesh := (smeshOps Q).delete_vertex gg.mesh v,
                      num_isolated_vertices := gg.num_isolated_vertices + 1 }
          else gg) gg).num_non_manifold_vertices = gg.num_non_manifold_vertices := by
  intro vs
  induction vs with
  | nil =>
    intro gg
    refine ⟨rfl, by simp, by simp, rfl, rfl, rfl, rfl⟩
  | cons v vs ih =>
    intro gg
    rw [List.foldl_cons]
    by_cases hiso : (neighborsIn gg.mesh.faces v).isEmpty = true
    · have hcond : (smeshOps Q).is_isolated gg.mesh v = true := hiso
      rw [if_pos hcond]
      obtain ⟨ihf, ihi, ihv, ih1, ih2, ih3, ih4⟩ := ih
        { gg with mesh := (smeshOps Q).delete_vertex gg.mesh v,
                  num_isolated_vertices := gg.num_isolated_vertices + 1 }
      simp only [show ((smeshOps Q).delete_vertex gg.mesh v).faces
          = gg.mesh.faces from rfl] at ihf ihi ihv
      refine ⟨ihf, ?_, ?_, ih1, ih2, ih3, ih4⟩
      · rw [ihi]
        simp only [List.filter_cons, hiso, if_true]
        simp [Nat.add_assoc, Nat.add_comm 1]
      · rw [ihv]
        show (gg.mesh.verts.filter (fun q => !(q.1 == v))).filter _ = _
        rw [List.filter_filter]
        apply List.filter_congr
        intro a _
        by_cases hav : a.1 = v
        · simp [hav, hiso]
        · simp [hav, beq_eq_false_iff_ne.mpr hav]
    · have hcond : ¬ ((smeshOps Q).is_isolated gg.mesh v = true) := hiso
      rw [if_neg hcond]
      obtain ⟨ihf, ihi, ihv, ih1, ih2, ih3, ih4⟩ := ih gg
      refine ⟨ihf, ?_, ?_, ih1, ih2, ih3, ih4⟩
      · rw [ihi]
        simp only [List.filter_cons, hiso]
        simp
      · rw [ihv]
        apply List.filter_congr
        intro a _
        by_cases hav : a.1 = v
        · rw [hav]
          simp [Bool.eq_false_iff.mpr hiso]
        · simp [hav, beq_eq_false_iff_ne.mpr hav]
/-- Characterisation of the non-manifold recount loop of `finish` on the mesh
model: it only adds the number of non-manifold vertices to the counter. -/
lemma nmv_fold {Q : Type} [Inhabited Q] :
    ∀ (vs : List Nat) (gg : ManifoldGuard Q (SMesh Q)),
      (vs.foldl (fun gg v =>
          if !(smeshOps Q).is_manifold gg.mesh v then
            { gg with num_non_manifold_vertices := gg.num_non_manifold_vertices + 1 }
          else gg) gg)
        = { gg with num_non_manifold_vertices := gg.num_non_manifold_vertices
            + (vs.filter (fun v => !(smeshOps Q).is_manifold gg.mesh v)).length } := by
  intro vs
  induction vs with
  | nil => intro gg; simp
  | cons v vs ih =>
    intro gg
    rw [List.foldl_cons]
    by_cases hm : (!(smeshOps Q).is_manifold gg.mesh v) = true
    · rw [if_pos hm, ih]
      simp only [show ({ gg with num_non_manifold_vertices :=
          gg.num_non_manifold_vertices + 1 } : ManifoldGuard Q (SMesh Q)).mesh
          = gg.mesh from rfl]
      simp only [List.filter_cons, hm, if_true]
      congr 1
      simp only [List.length_cons]
      omega
    · rw [if_neg hm, ih]
      simp only [List.filter_cons, hm]
      rfl
/-- C8: on the mesh model, `finish` deletes exactly the vertices isolated at
call time, incrementing the isolated-vertex counter once per deletion; it then
recomputes the non-manifold count over the vertices remaining after deletion
and compaction; and the diagnostic is emitted iff at least one of the five
counters is non-zero. -/
theorem claim_C8 {Q : Type} [Inhabited Q] (g : ManifoldGuard Q (SMesh Q)) :
    ((finish (smeshOps Q) g).1.mesh.verts = g.mesh.verts.filter
        (fun q => !(neighborsIn g.mesh.faces q.1).isEmpty)) ∧
    ((finish (smeshOps Q) g).1.num_isolated_vertices = g.num_isolated_vertices +
      ((g.mesh.verts.map (fun q => q.1)).filter
        (fun v => (neighborsIn g.mesh.faces v).isEmpty)).length) ∧
    ((finish (smeshOps Q) g).1.num_non_manifold_vertices
        = g.num_non_manifold_vertices +
      (((smeshOps Q).vertices (finish (smeshOps Q) g).1.mesh).filter
        (fun v => !(smeshOps Q).is_manifold (finish (smeshOps Q) g).1.mesh v)).length) ∧
    ((finish (smeshOps Q) g).2 = true ↔
      ((finish (smeshOps Q) g).1.num_isolated_vertices ≠ 0 ∨
       (finish (smeshOps Q) g).1.num_faces_less_three_vertices ≠ 0 ∨
       (finish (smeshOps Q) g).1.num_faces_duplicated_vertices ≠ 0 ∨
       (finish (smeshOps Q) g).1.num_non_manifold_edges ≠ 0 ∨
       (finish (smeshOps Q) g).1.num_non_manifold_vertices ≠ 0)) := by
  obtain ⟨hf, hi, hv, h1, h2, h3, h4⟩ := iso_fold ((smeshOps Q).vertices g.mesh) g
  unfold finish
  dsimp only
  rw [show ((smeshOps Q).garbage_collection (List.foldl (fun gg v =>
      if (smeshOps Q).is_isolated gg.mesh v = true then
        { gg with mesh := (smeshOps Q).delete_vertex gg.mesh v,
                  num_isolated_vertices := gg.num_isolated_vertices + 1 }
      else gg) g ((smeshOps Q).vertices g.mesh)).mesh)
      = (List.foldl (fun gg v =>
      if (smeshOps Q).is_isolated gg.mesh v = true then
        { gg with mesh := (smeshOps Q).delete_vertex gg.mesh v,
                  num_isolated_vertices := gg.num_isolated_vertices + 1 }
      else gg) g ((smeshOps Q).vertices g.mesh)).mesh from rfl]
  rw [nmv_fold]
  refine ⟨?_, ?_, ?_, ?_⟩
  · dsimp only
    rw [hv]
    apply List.filter_congr
    intro q hq
    have hmem : q.1 ∈ g.mesh.verts.map (fun q => q.1) := List.mem_map_of_mem _ hq
    have hcon : ((smeshOps Q).vertices g.mesh).contains q.1 =
        true := List.elem_eq_true_of_mem hmem
    rw [hcon]
    simp
  · dsimp only
    rw [hi]
    rfl
  · dsimp only
    rw [h4]
  · dsimp only
    rw [hi, h1, h2, h3, h4]
    simp only [Bool.or_eq_true, decide_eq_true_eq, Nat.pos_iff_ne_zero]
    tauto

/-- C1 fails on the code: after `[0,1,2]` has been added, adding `[0,1,2]`
again does change a guard counter (the non-manifold-edge counter moves off its
old value) and the insertion is not surfaced as an invalid handle. -/
theorem claim_C1_counterexample :
    ¬((sessionC2.1.num_faces_less_three_vertices
          = sessionC1.1.num_faces_less_three_vertices ∧
       sessionC2.1.num_faces_duplicated_vertices
          = sessionC1.1.num_faces_duplicated_vertices ∧
       sessionC2.1.num_non_manifold_edges
          = sessionC1.1.num_non_manifold_edges ∧
       sessionC2.1.num_non_manifold_vertices
          = sessionC1.1.num_non_manifold_vertices ∧
       sessionC2.1.num_isolated_vertices
          = sessionC1.1.num_isolated_vertices) ∧
      sessionC2.2 = none) := by decide

/-- C1 amended: in scenario C the second, identical `add_face([0,1,2])` is
caught by the guard itself — its first edge `0 → 1` already exists as an
interior half-edge, so the non-manifold-edge counter increases by exactly one
(the other four counters stay at zero), vertices 0 and 1 are duplicated to 3
and 4, and the face is inserted as the rewritten sequence `[3,4,2]` with a
valid handle; no mesh-level rejection is surfaced. -/
theorem claim_C1_amended :
    sessionC1.2 = some 0 ∧
    sessionC2.1.num_non_manifold_edges = 1 ∧
    sessionC2.1.num_faces_less_three_vertices = 0 ∧
    sessionC2.1.num_faces_duplicated_vertices = 0 ∧
    sessionC2.1.num_non_manifold_vertices = 0 ∧
    sessionC2.1.num_isolated_vertices = 0 ∧
    sessionC2.1.copies = [(0, [3]), (1, [4])] ∧
    sessionC2.1.face_vertices = [3, 4, 2] ∧
    sessionC2.2 = some 1 := by decide

end Easy3D
